import Mathlib

/-!
Verification of the DMEC tournament-management core (`App.tsx` and the
Convex backend `sessions.ts`): bracket construction, match resolution,
third-place synthesis, points allocation, registration and session
queries, shallowly embedded as pure Lean functions over explicit state.
Scores and points are modelled as rationals (the code uses JS numbers).
-/

namespace DMEC

/-- `Participant` from `types.ts` / `App.tsx`: id, display name, optional
numeric score (null before qualification scoring), integer seed. -/
structure Participant where
  id : Nat
  name : String
  score : Option ℚ
  seed : Nat
  deriving Repr, DecidableEq

/-- `Match` from `types.ts`: the third-place match uses `roundIndex = -1`,
hence an `Int` round index. -/
structure Match where
  id : Nat
  roundIndex : Int
  matchIndex : Nat
  participant1 : Option Participant
  participant2 : Option Participant
  winner : Option Participant
  nextMatchId : Option Nat
  deriving Repr, DecidableEq

/-- A bracket is an ordered list of rounds, each a list of matches. -/
abbrev BracketData := List (List Match)

/-- The `AppPhase` enum from `constants.ts`. -/
inductive AppPhase where
  | CHAMPIONSHIP_VIEW
  | QUALIFICATION
  | BRACKET
  | FINISHED
  deriving Repr, DecidableEq

/-- `ChampionshipStanding` from `types.ts`. -/
structure ChampionshipStanding where
  id : Nat
  name : String
  pointsPerCompetition : List ℚ
  deriving Repr, DecidableEq

/-- `AppState` from `types.ts`, as managed by `useState` in `App.tsx`. -/
structure AppState where
  phase : AppPhase
  standings : List ChampionshipStanding
  competitionParticipants : List Participant
  bracket : BracketData
  thirdPlaceMatch : Option Match
  totalCompetitions : Option Nat
  competitionsHeld : Nat
  deriving Repr, DecidableEq

/-! ## Seeding order (`handleStartBracket`, App.tsx lines 168-178)

The source loop: `let seeds = [1]; while (seeds.length < bracketSize) {
const currentBracketSize = seeds.length * 2; for (const seed of seeds)
{ push seed; push currentBracketSize + 1 - seed } }`. -/

/-- One doubling pass over the seed list: each seed `s` is replaced by the
pair `(s, c + 1 - s)` where `c` is `currentBracketSize`. -/
def seedStep (c : Nat) : List Nat → List Nat
  | [] => []
  | s :: rest => s :: (c + 1 - s) :: seedStep c rest

/-- The loop body of the seeding loop: `currentBracketSize = seeds.length * 2`. -/
def seedGrow (seeds : List Nat) : List Nat :=
  seedStep (2 * seeds.length) seeds

/-- The seeding loop, fuelled (each pass doubles the length, so fuel
`bracketSize` always suffices to reach the loop's exit condition). -/
def buildSeedsAux : Nat → Nat → List Nat → List Nat
  | 0, _, seeds => seeds
  | fuel + 1, size, seeds =>
    if seeds.length < size then buildSeedsAux fuel size (seedGrow seeds) else seeds

/-- `finalSeedOrder` for a given `bracketSize`: run the doubling loop
starting from `[1]` until the list reaches `bracketSize` entries. -/
def buildSeeds (size : Nat) : List Nat :=
  buildSeedsAux size size [1]

/-- The `k`-fold iteration of the doubling pass starting from `[1]`; the
loop computes exactly this when `bracketSize = 2 ^ k`. -/
def seedIter : Nat → List Nat
  | 0 => [1]
  | k + 1 => seedGrow (seedIter k)

theorem seedStep_length (c : Nat) (l : List Nat) :
    (seedStep c l).length = 2 * l.length := by
  induction l with
  | nil => rfl
  | cons s rest ih => simp [seedStep, ih]; omega

theorem seedStep_get_even (c : Nat) (l : List Nat) (p : Nat) :
    (seedStep c l).get? (2 * p) = l.get? p := by
  induction l generalizing p with
  | nil => simp [seedStep]
  | cons s rest ih =>
    cases p with
    | zero => rfl
    | succ q =>
      have h2 : 2 * (q + 1) = (2 * q) + 1 + 1 := by omega
      rw [h2]
      simp only [seedStep, List.get?]
      exact ih q

theorem seedIter_length (k : Nat) : (seedIter k).length = 2 ^ k := by
  induction k with
  | zero => rfl
  | succ n ih => simp [seedIter, seedGrow, seedStep_length, ih, pow_succ]; ring

theorem seedIter_get_zero (k : Nat) : (seedIter k).get? 0 = some 1 := by
  induction k with
  | zero => rfl
  | succ n ih =>
    have h0 : (2 : Nat) * 0 = 0 := rfl
    calc (seedIter (n + 1)).get? 0
        = (seedStep (2 * (seedIter n).length) (seedIter n)).get? (2 * 0) := by
          rw [h0]; rfl
      _ = (seedIter n).get? 0 := seedStep_get_even _ _ 0
      _ = some 1 := ih

theorem seedIter_get_two (k : Nat) (hk : 1 ≤ k) :
    (seedIter k).get? (2 ^ (k - 1)) = some 2 := by
  induction k with
  | zero => omega
  | succ n ih =>
    cases Nat.eq_or_lt_of_le hk with
    | inl h1 =>
      have : n = 0 := by omega
      subst this
      rfl
    | inr h2 =>
      have hn : 1 ≤ n := by omega
      have hpow : 2 ^ (n + 1 - 1) = 2 * 2 ^ (n - 1) := by
        have : n + 1 - 1 = (n - 1) + 1 := by omega
        rw [this, pow_succ]; ring
      calc (seedIter (n + 1)).get? (2 ^ (n + 1 - 1))
          = (seedStep (2 * (seedIter n).length) (seedIter n)).get? (2 * 2 ^ (n - 1)) := by
            rw [hpow]; rfl
        _ = (seedIter n).get? (2 ^ (n - 1)) := seedStep_get_even _ _ _
        _ = some 2 := ih hn

theorem buildSeedsAux_eq_seedIter (k : Nat) :
    ∀ fuel j, j ≤ k → k - j ≤ fuel →
      buildSeedsAux fuel (2 ^ k) (seedIter j) = seedIter k := by
  intro fuel
  induction fuel with
  | zero =>
    intro j hjk hfuel
    have : j = k := by omega
    subst this
    rfl
  | succ n ih =>
    intro j hjk hfuel
    cases Nat.eq_or_lt_of_le hjk with
    | inl heq =>
      subst heq
      simp [buildSeedsAux, seedIter_length]
    | inr hlt =>
      have hlen : (seedIter j).length < 2 ^ k := by
        rw [seedIter_length]
        exact Nat.pow_lt_pow_right (by omega) hlt
      simp only [buildSeedsAux, if_pos hlen]
      have : seedGrow (seedIter j) = seedIter (j + 1) := rfl
      rw [this]
      exact ih (j + 1) hlt (by omega)

theorem buildSeeds_pow (k : Nat) : buildSeeds (2 ^ k) = seedIter k := by
  have h1 : (seedIter 0) = [1] := rfl
  have := buildSeedsAux_eq_seedIter k (2 ^ k) 0 (Nat.zero_le k)
    (by simpa using Nat.le_of_lt (Nat.lt_two_pow k))
  simpa [buildSeeds, h1] using this

/-! ## Bracket construction (`handleStartBracket`, App.tsx lines 152-215) -/

/-- `p.score !== null && p.score > 0` (the qualification filter). -/
def qualifies (p : Participant) : Bool :=
  p.score.any (fun x => decide (0 < x))

/-- Stable insertion of a participant into a score-descending list: `p` is
placed before the first entry with a strictly smaller score, so entries
with equal scores keep their input order (JS `Array.sort` is stable). -/
def insertByScoreDesc (p : Participant) : List Participant → List Participant
  | [] => [p]
  | q :: rest =>
    if q.score.getD 0 < p.score.getD 0 then p :: q :: rest
    else q :: insertByScoreDesc p rest

/-- `sort((a, b) => b.score - a.score)`: stable descending sort by score. -/
def sortByScoreDesc : List Participant → List Participant
  | [] => []
  | p :: rest => insertByScoreDesc p (sortByScoreDesc rest)

/-- `.map((p, index) => ({ ...p, seed: index + 1 }))`. -/
def seedAssign (l : List Participant) : List Participant :=
  l.enum.map (fun ip => { ip.2 with seed := ip.1 + 1 })

/-- `qualifiedParticipants`: filter to score > 0, sort descending by
score, assign seeds 1.. in rank order. -/
def qualifiedSeeded (ps : List Participant) : List Participant :=
  seedAssign (sortByScoreDesc (ps.filter qualifies))

/-- Ceiling base-2 logarithm, fuelled structural recursion (the fuel `n`
suffices since the argument at least halves once it exceeds 1). -/
def ceilLog2Aux : Nat → Nat → Nat
  | 0, _ => 0
  | fuel + 1, n => if n ≤ 1 then 0 else ceilLog2Aux fuel ((n + 1) / 2) + 1

/-- `Math.ceil(Math.log2(n))` on naturals. -/
def ceilLog2 (n : Nat) : Nat := ceilLog2Aux n n

theorem ceilLog2Aux_eq_clog (fuel : Nat) :
    ∀ n, n ≤ fuel → ceilLog2Aux fuel n = Nat.clog 2 n := by
  induction fuel with
  | zero =>
    intro n hn
    have : n = 0 := by omega
    subst this
    simp [ceilLog2Aux]
  | succ m ih =>
    intro n hn
    by_cases h1 : n ≤ 1
    · interval_cases n <;> simp [ceilLog2Aux]
    · have h2 : 2 ≤ n := by omega
      have hrec := @Nat.clog_of_two_le 2 n (by norm_num) h2
      have harg : (n + 2 - 1) / 2 = (n + 1) / 2 := by omega
      rw [harg] at hrec
      have hle : (n + 1) / 2 ≤ m := by omega
      simp only [ceilLog2Aux, if_neg h1]
      rw [ih _ hle, hrec]

theorem ceilLog2_eq_clog (n : Nat) : ceilLog2 n = Nat.clog 2 n :=
  ceilLog2Aux_eq_clog n n (Nat.le_refl n)

theorem one_le_ceilLog2 (n : Nat) (hn : 2 ≤ n) : 1 ≤ ceilLog2 n := by
  obtain ⟨m, rfl⟩ : ∃ m, n = m + 2 := ⟨n - 2, by omega⟩
  simp [ceilLog2, ceilLog2Aux]

/-- `bracketSize = Math.pow(2, Math.ceil(Math.log2(n)))`: the smallest
power of two that is at least `n` (for `n ≥ 1`). -/
def bracketSizeOf (n : Nat) : Nat :=
  2 ^ ceilLog2 n

/-- `participantMap.get(seed)`: the map is built by inserting every
qualified participant keyed by its seed, later insertions overwriting
earlier ones, exactly as `Map.set` does. -/
def seedLookup (qs : List Participant) (sd : Nat) : Option Participant :=
  qs.foldl (fun acc p => if p.seed == sd then some p else acc) none

/-- Round-0 bye resolution: a real participant paired against a null slot
is immediately the match's winner. -/
def byeWinner (p1 p2 : Option Participant) : Option Participant :=
  match p1, p2 with
  | some a, none => some a
  | none, some b => some b
  | _, _ => none

/-- Round 0: pair consecutive entries of the seeding order; ids are
`0, 1, ...` in match order (`matchIdCounter`). -/
def mkFirstRound (qs : List Participant) (order : List Nat) : List Match :=
  (List.range (order.length / 2)).map (fun m =>
    let p1 := (order.get? (2 * m)).bind (seedLookup qs)
    let p2 := (order.get? (2 * m + 1)).bind (seedLookup qs)
    { id := m, roundIndex := 0, matchIndex := m, participant1 := p1, participant2 := p2,
      winner := byeWinner p1 p2, nextMatchId := none })

/-- The slot-ordering convention: when both slots are filled and slot 1
holds the numerically greater (worse) seed, swap the two slots. -/
def orderSlots (p1 p2 : Option Participant) : Option Participant × Option Participant :=
  match p1, p2 with
  | some a, some b => if b.seed < a.seed then (some b, some a) else (some a, some b)
  | x, y => (x, y)

/-- A later round: match `m` receives the winners of previous-round
matches `2m` and `2m+1` (null if unresolved), slot-ordered; ids continue
from `idStart` (`matchIdCounter`). -/
def mkNextRound (idStart roundIndex : Nat) (prev : List Match) : List Match :=
  (List.range (prev.length / 2)).map (fun m =>
    let p1 := (prev.get? (2 * m)).bind Match.winner
    let p2 := (prev.get? (2 * m + 1)).bind Match.winner
    let pq := orderSlots p1 p2
    { id := idStart + m, roundIndex := (roundIndex : Int), matchIndex := m,
      participant1 := pq.1, participant2 := pq.2, winner := none, nextMatchId := none })

/-- `previousRound[i].nextMatchId = currentRound[Math.floor(i / 2)].id`. -/
def linkRound (next : List Match) (prev : List Match) : List Match :=
  prev.enum.map (fun im => { im.2 with nextMatchId := (next.get? (im.1 / 2)).map Match.id })

/-- The round-construction loop (`for roundIndex = 1; roundIndex < numRounds`):
each iteration builds the next round from the current one, links the
current round into it, and recurses with the id counter advanced. -/
def buildRounds (prev : List Match) (idStart roundIndex roundsLeft : Nat) : BracketData :=
  match roundsLeft with
  | 0 => [prev]
  | n + 1 =>
    let next := mkNextRound idStart roundIndex prev
    linkRound next prev :: buildRounds next (idStart + next.length) (roundIndex + 1) n

/-- The full bracket built from the seeded qualifier list `qs`:
`numRounds = log2(bracketSize)` rounds, round 0 holding
`bracketSize / 2` matches. -/
def buildBracket (qs : List Participant) : BracketData :=
  let size := bracketSizeOf qs.length
  buildRounds (mkFirstRound qs (buildSeeds size)) (size / 2) 1 (ceilLog2 qs.length - 1)

/-- The `alert` raised by `handleStartBracket` when fewer than
`MIN_PARTICIPANTS = 2` qualifiers exist; `none` when the build proceeds. -/
def startBracketAlert (ps : List Participant) : Option String :=
  if (qualifiedSeeded ps).length < 2 then
    some "Tabeli genereerimiseks on vaja vähemalt 2 osalejat, kelle tulemus on suurem kui 0."
  else none

/-- `handleStartBracket`: on fewer than 2 qualifiers the handler alerts
and returns without calling `setAppState` (state untouched); otherwise it
stores the new bracket and moves to the BRACKET phase. -/
def handleStartBracket (ps : List Participant) (s : AppState) : AppState :=
  let qs := qualifiedSeeded ps
  if qs.length < 2 then s
  else { s with bracket := buildBracket qs, phase := AppPhase.BRACKET }

/-- `handleStartCompetition` (App.tsx lines 134-150): snapshots standings
into competition participants with null scores, clears the bracket and
the third-place match, and enters the QUALIFICATION phase. -/
def handleStartCompetition (s : AppState) : AppState :=
  { s with
    competitionParticipants :=
      s.standings.map (fun p => { id := p.id, name := p.name, score := none, seed := 0 }),
    bracket := [],
    thirdPlaceMatch := none,
    phase := AppPhase.QUALIFICATION }

/-! ## Match resolution (`handleSetWinner`, App.tsx lines 217-294) -/

/-- Locate a match by id: scan rounds in order, take the first round's
first match whose id equals `mid` (the source's nested `for`/`find`). -/
def findMatch? : BracketData → Nat → Option Match
  | [], _ => none
  | r :: rs, mid =>
    match r.find? (fun m => m.id == mid) with
    | some m => some m
    | none => findMatch? rs mid

/-- Apply `f` to the first match of the row whose id is `mid`; the flag
reports whether such a match was found. -/
def updateRow (mid : Nat) (f : Match → Match) : List Match → List Match × Bool
  | [] => ([], false)
  | m :: rest =>
    if m.id == mid then (f m :: rest, true)
    else
      let r := updateRow mid f rest
      (m :: r.1, r.2)

/-- Apply `f` to the first match (in round order) whose id is `mid`, the
in-place mutation of the aliased match object in the source. -/
def updateBracketFirst (mid : Nat) (f : Match → Match) : BracketData → BracketData
  | [] => []
  | r :: rs =>
    let u := updateRow mid f r
    if u.2 then u.1 :: rs else r :: updateBracketFirst mid f rs

/-- Advance `w` into the next match: slot 1 when the resolved match's
`matchIndex` is even, slot 2 otherwise; then, if both slots are filled and
slot 1 holds the worse seed, swap the slots. -/
def placeWinner (mi : Nat) (w : Participant) (nm : Match) : Match :=
  let nm1 :=
    if mi % 2 == 0 then { nm with participant1 := some w }
    else { nm with participant2 := some w }
  match nm1.participant1, nm1.participant2 with
  | some a, some b =>
    if b.seed < a.seed then { nm1 with participant1 := some b, participant2 := some a }
    else nm1
  | _, _ => nm1

/-- The standard (non-third-place) case of `handleSetWinner`: locate the
match; if absent or already resolved do nothing; otherwise record the
winner and, when a `nextMatchId` is present, advance the winner into that
match (the search for the next match runs over the updated bracket,
exactly as the source re-scans `newBracket`). -/
def setWinnerBracket (b : BracketData) (mid : Nat) (w : Participant) : BracketData :=
  match findMatch? b mid with
  | none => b
  | some mt =>
    if mt.winner.isSome then b
    else
      let b1 := updateBracketFirst mid (fun m => { m with winner := some w }) b
      match mt.nextMatchId with
      | none => b1
      | some nid => updateBracketFirst nid (placeWinner mt.matchIndex w) b1

/-- The semifinal round: `newBracket[numRounds - 2]` (empty list when the
bracket has fewer than two rounds; only consulted under that guard). -/
def semiRound (b : BracketData) : List Match :=
  (b.get? (b.length - 2)).getD []

/-- `semiFinals.every(m => m.winner)`. -/
def semisResolved (b : BracketData) : Bool :=
  (semiRound b).all (fun m => m.winner.isSome)

/-- `findLoser`: null when either slot is null; otherwise the slot
participant whose id differs from the winner's (a null winner compares
unequal to slot 1's id, yielding slot 1, as `winner?.id === p1.id` does). -/
def findLoser (m : Match) : Option Participant :=
  match m.participant1, m.participant2 with
  | some p1, some p2 =>
    if m.winner.map Participant.id == some p1.id then some p2 else some p1
  | _, _ => none

/-- The non-null semifinal losers, in semifinal order. -/
def semiLosers (b : BracketData) : List Participant :=
  (semiRound b).filterMap findLoser

/-- Build the third-place match from the loser list: with two losers the
better seed takes slot 1 and the winner is open; with exactly one loser
the match is degenerate, its winner pre-set; otherwise nothing. The id is
the reserved constant 999, round index -1. -/
def mkThirdPlace : List Participant → Option Match
  | [l0, l1] =>
    let pq := if l0.seed < l1.seed then (l0, l1) else (l1, l0)
    some { id := 999, roundIndex := -1, matchIndex := 0, participant1 := some pq.1,
           participant2 := some pq.2, winner := none, nextMatchId := none }
  | [l0] =>
    some { id := 999, roundIndex := -1, matchIndex := 0, participant1 := some l0,
           participant2 := none, winner := some l0, nextMatchId := none }
  | _ => none

/-- Third-place synthesis: runs only when the bracket has more than one
round, no third-place match exists yet, and every semifinal is resolved. -/
def synthesizeThird (b : BracketData) (tpm : Option Match) : Option Match :=
  if 1 < b.length && tpm.isNone && semisResolved b then
    match mkThirdPlace (semiLosers b) with
    | some t => some t
    | none => tpm
  else tpm

/-- `newBracket[newBracket.length - 1]?.[0]` then `.winner`. -/
def finalWinner (b : BracketData) : Option Participant :=
  ((b.getLast?).bind (fun r => r.get? 0)).bind Match.winner

/-- `isTournamentFinished`: the final has a winner and the third-place
match, if present, has one too. -/
def tournamentFinished (b : BracketData) (tpm : Option Match) : Bool :=
  (finalWinner b).isSome && tpm.all (fun t => t.winner.isSome)

/-- `handleSetWinner`: the third-place match, when targeted, has its
winner set directly (no guard); otherwise the bracket case runs. Then
third-place synthesis and completion detection run on the updated data;
the phase moves to FINISHED exactly when the tournament is finished. -/
def setWinner (s : AppState) (mid : Nat) (w : Participant) : AppState :=
  let bt :=
    match s.thirdPlaceMatch with
    | some t =>
      if t.id == mid then (s.bracket, some { t with winner := some w })
      else (setWinnerBracket s.bracket mid w, some t)
    | none => (setWinnerBracket s.bracket mid w, none)
  let tpm2 := synthesizeThird bt.1 bt.2
  let phase2 := if tournamentFinished bt.1 tpm2 then AppPhase.FINISHED else s.phase
  { s with bracket := bt.1, thirdPlaceMatch := tpm2, phase := phase2 }

/-! ## Qualification points (`handleReturnToChampionship`, App.tsx lines 296-347) -/

/-- The qualification-points cascade of App.tsx lines 306-308: `points`
starts at 0 and is set by the rank tests in source order. -/
def rankPoints (rank : Nat) : ℚ :=
  if rank = 1 then 12
  else if rank = 2 then 10
  else if rank = 3 then 8
  else if rank = 4 then 6
  else if 5 ≤ rank ∧ rank ≤ 6 then 4
  else if 7 ≤ rank ∧ rank ≤ 8 then 3
  else if 9 ≤ rank ∧ rank ≤ 12 then 2
  else if 13 ≤ rank ∧ rank ≤ 16 then 1
  else if 17 ≤ rank ∧ rank ≤ 24 then 1/2
  else if 25 ≤ rank ∧ rank ≤ 32 then 1/4
  else 0

/-- Modelled from the spec's qualification-points table, for comparison
with the code's cascade: rank 1→12, 2→10, 3→8, 4→6, 5–6→4, 7–8→3,
9–12→2, 13–16→1, 17–24→0.5, 25–32→0.25, above 32→0. -/
def specRankPoints (rank : Nat) : ℚ :=
  if rank = 1 then 12
  else if rank = 2 then 10
  else if rank = 3 then 8
  else if rank = 4 then 6
  else if 5 ≤ rank ∧ rank ≤ 6 then 4
  else if 7 ≤ rank ∧ rank ≤ 8 then 3
  else if 9 ≤ rank ∧ rank ≤ 12 then 2
  else if 13 ≤ rank ∧ rank ≤ 16 then 1
  else if 17 ≤ rank ∧ rank ≤ 24 then 1/2
  else if 25 ≤ rank ∧ rank ≤ 32 then 1/4
  else 0

/-- `qualified` in `handleReturnToChampionship`: competition participants
with score > 0, sorted descending by score (stable). -/
def qualifiedRanking (ps : List Participant) : List Participant :=
  sortByScoreDesc (ps.filter qualifies)

/-- The qualification points awarded by `handleReturnToChampionship`: the
participant at sorted index `i` (`rank = index + 1`) receives
`rankPoints (i + 1)`, recorded here as an `(id, points)` list. -/
def qualPointsOf (ps : List Participant) : List (Nat × ℚ) :=
  (qualifiedRanking ps).enum.map (fun ip => (ip.2.id, rankPoints (ip.1 + 1)))

/-! ## Convex backend (`convex/sessions.ts`, `convex/schema.ts`) -/

/-- A document of the `sessions` table (`convex/schema.ts`). -/
structure SessionDoc where
  sessionId : String
  adminSecret : String
  phase : AppPhase
  standings : List ChampionshipStanding
  competitionParticipants : List Participant
  bracket : BracketData
  thirdPlaceMatch : Option Match
  totalCompetitions : Option Nat
  competitionsHeld : Nat
  createdAt : Nat
  updatedAt : Nat
  deriving Repr, DecidableEq

/-- A document of the `registrations` table (`convex/schema.ts`). -/
structure RegistrationDoc where
  sessionId : String
  participantId : Nat
  name : String
  createdAt : Nat
  processed : Bool
  deriving Repr, DecidableEq

/-- The two Convex tables, each in table (insertion) order. -/
structure ConvexDB where
  sessions : List SessionDoc
  registrations : List RegistrationDoc
  deriving Repr, DecidableEq

/-- `getSession`'s result shape: every `sessions` field except
`adminSecret` (the rest-destructuring `{ adminSecret, ...publicSession }`). -/
structure PublicSession where
  sessionId : String
  phase : AppPhase
  standings : List ChampionshipStanding
  competitionParticipants : List Participant
  bracket : BracketData
  thirdPlaceMatch : Option Match
  totalCompetitions : Option Nat
  competitionsHeld : Nat
  createdAt : Nat
  updatedAt : Nat
  deriving Repr, DecidableEq

/-- Drop the `adminSecret` field before returning a session to a client. -/
def scrubSession (s : SessionDoc) : PublicSession :=
  { sessionId := s.sessionId, phase := s.phase, standings := s.standings,
    competitionParticipants := s.competitionParticipants, bracket := s.bracket,
    thirdPlaceMatch := s.thirdPlaceMatch, totalCompetitions := s.totalCompetitions,
    competitionsHeld := s.competitionsHeld, createdAt := s.createdAt,
    updatedAt := s.updatedAt }

/-- `by_sessionId` index lookup with `.first()`: the first stored session
with the given id. -/
def findSession (db : ConvexDB) (sid : String) : Option SessionDoc :=
  db.sessions.find? (fun s => s.sessionId == sid)

/-- The public `getSession` query: null for a missing session, otherwise
the session with the admin secret removed. -/
def getSession (db : ConvexDB) (sid : String) : Option PublicSession :=
  (findSession db sid).map scrubSession

/-- `ctx.db.patch(session._id, ...)` for the session found by
`findSession`: rewrite the first session with the given id. -/
def patchFirstSession (sid : String) (f : SessionDoc → SessionDoc) :
    List SessionDoc → List SessionDoc
  | [] => []
  | s :: rest =>
    if s.sessionId == sid then f s :: rest
    else s :: patchFirstSession sid f rest

/-- JS `String.prototype.toLowerCase()` modelled character-wise over the
string's character list (kernel-computable). -/
def jsToLower (s : String) : String :=
  ⟨s.data.map Char.toLower⟩

/-- JS `String.prototype.trim()`: strip whitespace from both ends
(kernel-computable). -/
def jsTrim (s : String) : String :=
  ⟨((s.data.dropWhile Char.isWhitespace).reverse.dropWhile Char.isWhitespace).reverse⟩

/-- The duplicate test against current standings: the submitted name is
lowercased and trimmed, each standing's name is lowercased. -/
def standingsDup (sess : SessionDoc) (nm : String) : Bool :=
  sess.standings.any (fun p => jsToLower p.name == jsTrim (jsToLower nm))

/-- The duplicate test against pending registrations: an exact
(case-sensitive) match of the stored name against the trimmed submitted
name, within the session's rows. -/
def pendingDup (db : ConvexDB) (sid nm : String) : Bool :=
  ((db.registrations.filter (fun r => r.sessionId == sid)).find?
    (fun r => r.name == jsTrim nm)).isSome

/-- `registerParticipant` (`convex/sessions.ts` lines 182-243): reject a
missing session or a detected duplicate (a thrown Convex error aborts the
mutation, leaving both tables untouched); otherwise insert a registration
row and append a standing with `competitionsHeld` zero entries, stamping
`Date.now()` (passed here as `now`) as the participant id and timestamps. -/
def registerParticipant (db : ConvexDB) (sid nm : String) (now : Nat) :
    ConvexDB × Option String :=
  match findSession db sid with
  | none => (db, some "Session not found")
  | some sess =>
    if standingsDup sess nm then (db, some "See nimi on juba registreeritud")
    else if pendingDup db sid nm then (db, some "See nimi on juba registreeritud")
    else
      let reg : RegistrationDoc :=
        { sessionId := sid, participantId := now, name := jsTrim nm,
          createdAt := now, processed := false }
      let standing : ChampionshipStanding :=
        { id := now, name := jsTrim nm,
          pointsPerCompetition := List.replicate sess.competitionsHeld 0 }
      ({ sessions := patchFirstSession sid
           (fun s => { s with standings := s.standings ++ [standing], updatedAt := now })
           db.sessions,
         registrations := db.registrations ++ [reg] }, none)

/-! ## Helper lemmas about the resolver's bracket updates -/

theorem updateRow_found (mid : Nat) (f : Match → Match) (l : List Match) :
    (updateRow mid f l).2 = (l.find? (fun m => m.id == mid)).isSome := by
  induction l with
  | nil => rfl
  | cons m rest ih =>
    by_cases h : (m.id == mid) = true
    · simp [updateRow, List.find?, h]
    · simp only [Bool.not_eq_true] at h
      simp [updateRow, List.find?, h, ih]

theorem updateRow_length (mid : Nat) (f : Match → Match) (l : List Match) :
    (updateRow mid f l).1.length = l.length := by
  induction l with
  | nil => rfl
  | cons m rest ih =>
    by_cases h : (m.id == mid) = true
    · simp [updateRow, h]
    · simp only [Bool.not_eq_true] at h
      simp [updateRow, h, ih]

theorem updateBracketFirst_length (mid : Nat) (f : Match → Match) (b : BracketData) :
    (updateBracketFirst mid f b).length = b.length := by
  induction b with
  | nil => rfl
  | cons r rs ih =>
    by_cases h : (updateRow mid f r).2 = true
    · simp [updateBracketFirst, h]
    · simp only [Bool.not_eq_true] at h
      simp [updateBracketFirst, h, ih]

theorem setWinnerBracket_length (b : BracketData) (mid : Nat) (w : Participant) :
    (setWinnerBracket b mid w).length = b.length := by
  unfold setWinnerBracket
  cases hf : findMatch? b mid with
  | none => rfl
  | some mt =>
    by_cases hw : mt.winner.isSome = true
    · simp [hw]
    · simp only [Bool.not_eq_true] at hw
      cases hn : mt.nextMatchId with
      | none => simp [hw, hn, updateBracketFirst_length]
      | some nid => simp [hw, hn, updateBracketFirst_length]

theorem find?_updateRow_self (mid : Nat) (f : Match → Match) (l : List Match)
    (hid : ∀ m, (f m).id = m.id) :
    (updateRow mid f l).1.find? (fun m => m.id == mid) =
      (l.find? (fun m => m.id == mid)).map f := by
  induction l with
  | nil => rfl
  | cons m rest ih =>
    by_cases h : (m.id == mid) = true
    · have hfid : ((f m).id == mid) = true := by rw [hid]; exact h
      simp [updateRow, List.find?, h, hfid]
    · simp only [Bool.not_eq_true] at h
      simp [updateRow, List.find?, h, ih]

theorem findMatch?_updateBracketFirst_self (mid : Nat) (f : Match → Match) (b : BracketData)
    (hid : ∀ m, (f m).id = m.id) :
    findMatch? (updateBracketFirst mid f b) mid = (findMatch? b mid).map f := by
  induction b with
  | nil => rfl
  | cons r rs ih =>
    have hflag := updateRow_found mid f r
    by_cases h : (updateRow mid f r).2 = true
    · have hsome : ((r.find? (fun m => m.id == mid))).isSome = true := by
        rw [← hflag]; exact h
      obtain ⟨x, hx⟩ := Option.isSome_iff_exists.mp hsome
      have hrow := find?_updateRow_self mid f r hid
      simp only [updateBracketFirst, h, if_true]
      simp [findMatch?, hrow, hx]
    · simp only [Bool.not_eq_true] at h
      have hnone : (r.find? (fun m => m.id == mid)) = none := by
        rw [h] at hflag
        exact Option.not_isSome_iff_eq_none.mp (by rw [← hflag]; simp)
      simp only [updateBracketFirst, h, Bool.false_eq_true, if_false]
      simp [findMatch?, hnone, ih]

theorem find?_updateRow_winner (nid mid : Nat) (g : Match → Match) (l : List Match)
    (hid : ∀ m, (g m).id = m.id) (hw : ∀ m, (g m).winner = m.winner) :
    ((updateRow nid g l).1.find? (fun m => m.id == mid)).map Match.winner =
      (l.find? (fun m => m.id == mid)).map Match.winner := by
  induction l with
  | nil => rfl
  | cons m rest ih =>
    by_cases h : (m.id == nid) = true
    · by_cases h2 : (m.id == mid) = true
      · have hgid : ((g m).id == mid) = true := by rw [hid]; exact h2
        simp [updateRow, List.find?, h, h2, hgid, hw]
      · simp only [Bool.not_eq_true] at h2
        have hgid : ((g m).id == mid) = false := by rw [hid]; exact h2
        simp [updateRow, List.find?, h, h2, hgid]
    · simp only [Bool.not_eq_true] at h
      by_cases h2 : (m.id == mid) = true
      · simp [updateRow, List.find?, h, h2]
      · simp only [Bool.not_eq_true] at h2
        simp [updateRow, List.find?, h, h2, ih]

theorem findMatch?_updateBracketFirst_winner (nid mid : Nat) (g : Match → Match)
    (b : BracketData) (hid : ∀ m, (g m).id = m.id) (hw : ∀ m, (g m).winner = m.winner) :
    (findMatch? (updateBracketFirst nid g b) mid).map Match.winner =
      (findMatch? b mid).map Match.winner := by
  induction b with
  | nil => rfl
  | cons r rs ih =>
    by_cases h : (updateRow nid g r).2 = true
    · have hrow := find?_updateRow_winner nid mid g r hid hw
      simp only [updateBracketFirst, h, if_true]
      cases hx : r.find? (fun m => m.id == mid) with
      | some x =>
        rw [hx] at hrow
        cases hy : (updateRow nid g r).1.find? (fun m => m.id == mid) with
        | some y =>
          rw [hy] at hrow
          simp only [Option.map_some'] at hrow
          simp [findMatch?, hx, hy, hrow]
        | none => rw [hy] at hrow; simp at hrow
      | none =>
        rw [hx] at hrow
        cases hy : (updateRow nid g r).1.find? (fun m => m.id == mid) with
        | some y => rw [hy] at hrow; simp at hrow
        | none => simp [findMatch?, hx, hy]
    · simp only [Bool.not_eq_true] at h
      simp only [updateBracketFirst, h, Bool.false_eq_true, if_false]
      cases hx : r.find? (fun m => m.id == mid) with
      | some x => simp [findMatch?, hx]
      | none => simp [findMatch?, hx, ih]

theorem placeWinner_id (mi : Nat) (w : Participant) (nm : Match) :
    (placeWinner mi w nm).id = nm.id := by
  unfold placeWinner
  by_cases h : (mi % 2 == 0) = true <;>
    simp only [h, Bool.false_eq_true, if_true, if_false] <;>
    (first
      | (cases nm.participant2 with
          | none => rfl
          | some b => by_cases h2 : b.seed < w.seed <;> simp [h2]
         )
      | skip)
  all_goals
    cases hp : nm.participant1 with
    | none => simp [hp]
    | some a => by_cases h2 : w.seed < a.seed <;> simp [hp, h2]

theorem placeWinner_winner (mi : Nat) (w : Participant) (nm : Match) :
    (placeWinner mi w nm).winner = nm.winner := by
  unfold placeWinner
  by_cases h : (mi % 2 == 0) = true <;>
    simp only [h, Bool.false_eq_true, if_true, if_false] <;>
    (first
      | (cases nm.participant2 with
          | none => rfl
          | some b => by_cases h2 : b.seed < w.seed <;> simp [h2]
         )
      | skip)
  all_goals
    cases hp : nm.participant1 with
    | none => simp [hp]
    | some a => by_cases h2 : w.seed < a.seed <;> simp [hp, h2]

theorem setWinnerBracket_resolved (b : BracketData) (mid : Nat) (w : Participant)
    (mt : Match) (hf : findMatch? b mid = some mt) (hw : mt.winner.isSome = true) :
    setWinnerBracket b mid w = b := by
  unfold setWinnerBracket
  rw [hf]
  simp [hw]

theorem mkThirdPlace_isSome (ls : List Participant) :
    (mkThirdPlace ls).isSome = (ls.length == 1 || ls.length == 2) := by
  match ls with
  | [] => rfl
  | [_] => rfl
  | [_, _] => rfl
  | _ :: _ :: _ :: _ => simp [mkThirdPlace]

/-- The exact condition under which `handleSetWinner` synthesizes a new
third-place match from bracket `b` and current third-place value `tpm`. -/
def wouldSynthesize (b : BracketData) (tpm : Option Match) : Bool :=
  1 < b.length && tpm.isNone && semisResolved b &&
    ((semiLosers b).length == 1 || (semiLosers b).length == 2)

theorem synthesizeThird_of_not (b : BracketData) (tpm : Option Match)
    (h : wouldSynthesize b tpm = false) : synthesizeThird b tpm = tpm := by
  unfold synthesizeThird
  by_cases hc : (1 < b.length && tpm.isNone && semisResolved b) = true
  · have hlen : ((semiLosers b).length == 1 || (semiLosers b).length == 2) = false := by
      cases hX : ((semiLosers b).length == 1 || (semiLosers b).length == 2) with
      | false => rfl
      | true =>
        exfalso
        unfold wouldSynthesize at h
        rw [hX] at h
        simp only [Bool.and_true] at h
        rw [h] at hc
        exact absurd hc (by simp)
    have hnone : mkThirdPlace (semiLosers b) = none := by
      have hks := mkThirdPlace_isSome (semiLosers b)
      rw [hlen] at hks
      exact Option.not_isSome_iff_eq_none.mp (by rw [hks]; simp)
    rw [if_pos hc, hnone]
  · rw [if_neg hc]

/-! ## Concrete fixtures: states produced by the embedded operations -/

/-- A participant literal (id, name, score, seed). -/
def mkP (i : Nat) (nm : String) (sc : ℚ) (sd : Nat) : Participant :=
  { id := i, name := nm, score := some sc, seed := sd }

/-- The initial application state (`getInitialState`). -/
def init0 : AppState :=
  { phase := AppPhase.CHAMPIONSHIP_VIEW, standings := [], competitionParticipants := [],
    bracket := [], thirdPlaceMatch := none, totalCompetitions := none, competitionsHeld := 0 }

/-- Three qualification participants with scores 3, 2, 1. -/
def ps3 : List Participant := [mkP 10 "A" 3 0, mkP 11 "B" 2 0, mkP 12 "C" 1 0]

/-- Participant "A" as seeded (seed 1) inside the 3-player bracket. -/
def sA3 : Participant := mkP 10 "A" 3 1

/-- Participant "B" as seeded (seed 2) inside the 3-player bracket. -/
def sB3 : Participant := mkP 11 "B" 2 2

/-- The bracket state built from `ps3`: bracket size 4, match 0 a bye
(winner pre-set to "A"), match 1 pairing "B" and "C", one final. -/
def bracket3 : AppState := handleStartBracket ps3 init0

/-- `bracket3` after resolving match 1 for "B": both semifinals are then
resolved with a single loser "C", so the degenerate third-place match
(winner pre-set to "C") is synthesized. -/
def state3a : AppState := setWinner bracket3 1 sB3

/-- Six qualification participants with scores 6..1. -/
def ps6 : List Participant :=
  [mkP 1 "A" 6 0, mkP 2 "B" 5 0, mkP 3 "C" 4 0, mkP 4 "D" 3 0, mkP 5 "E" 2 0, mkP 6 "F" 1 0]

/-- Participant "A" as seeded (seed 1) inside the 6-player bracket. -/
def sA6 : Participant := mkP 1 "A" 6 1

/-- Participant "B" as seeded (seed 2) inside the 6-player bracket. -/
def sB6 : Participant := mkP 2 "B" 5 2

/-- The bracket state built from `ps6`: bracket size 8; both semifinals
start with one advanced bye winner and one open slot. -/
def bracket6 : AppState := handleStartBracket ps6 init0

/-- `bracket6` after resolving semifinal 4 (id 4) for "A". -/
def state6a : AppState := setWinner bracket6 4 sA6

/-- `state6a` after resolving semifinal 5 (id 5) for "B": both semifinals
now have winners while each still has a null slot, so the loser list is
empty. -/
def state6b : AppState := setWinner state6a 5 sB6

/-! ## C1 -/

/-- C1, counterexample: in the reachable state `state3a` the third-place
match already has winner "C" (id 12), yet `setWinner 999 sB3` overwrites
that winner with "B" (id 11) — the third-place branch of `handleSetWinner`
has no already-resolved guard, so the call is not a no-op. -/
theorem setWinner_thirdPlace_overwrite :
    (state3a.thirdPlaceMatch.bind Match.winner).map Participant.id = some 12 ∧
      ((setWinner state3a 999 sB3).thirdPlaceMatch.bind Match.winner).map Participant.id =
        some 11 := by
  constructor <;> rfl

/-- C1 as amended: a `setWinner` call that targets a bracket match whose
winner is already assigned (and does not target the third-place match) is
a no-op — the entire state is unchanged — in every state where
third-place synthesis would not fire and the phase already reflects
completion, both of which hold in all states the app's own flow produces.
The third-place match is the exception recorded by the counterexample:
its winner is overwritten unconditionally. -/
theorem setWinner_resolved_noop (s : AppState) (mid : Nat) (w : Participant)
    (h1 : ((findMatch? s.bracket mid).bind Match.winner).isSome = true)
    (h2 : s.thirdPlaceMatch.map Match.id ≠ some mid)
    (h3 : wouldSynthesize s.bracket s.thirdPlaceMatch = false)
    (h4 : tournamentFinished s.bracket s.thirdPlaceMatch = true →
      s.phase = AppPhase.FINISHED) :
    setWinner s mid w = s := by
  obtain ⟨mt, hmt⟩ : ∃ mt, findMatch? s.bracket mid = some mt := by
    cases hf : findMatch? s.bracket mid with
    | none => rw [hf] at h1; simp at h1
    | some mt => exact ⟨mt, rfl⟩
  have hwin : mt.winner.isSome = true := by
    rw [hmt] at h1
    simpa using h1
  have hb : setWinnerBracket s.bracket mid w = s.bracket :=
    setWinnerBracket_resolved s.bracket mid w mt hmt hwin
  unfold setWinner
  have hbt :
      (match s.thirdPlaceMatch with
        | some t =>
          if t.id == mid then (s.bracket, some { t with winner := some w })
          else (setWinnerBracket s.bracket mid w, some t)
        | none => (setWinnerBracket s.bracket mid w, none)) =
        (s.bracket, s.thirdPlaceMatch) := by
    cases ht : s.thirdPlaceMatch with
    | none => simp [hb]
    | some t =>
      have hne : (t.id == mid) = false := by
        rw [ht] at h2
        simp only [Option.map_some'] at h2
        simp only [beq_eq_false_iff_ne, ne_eq]
        intro hcontra
        exact h2 (by rw [hcontra])
      simp [hne, hb]
  rw [hbt]
  have hsyn : synthesizeThird s.bracket s.thirdPlaceMatch = s.thirdPlaceMatch :=
    synthesizeThird_of_not _ _ h3
  simp only [hsyn]
  cases hfin : tournamentFinished s.bracket s.thirdPlaceMatch with
  | false => simp
  | true =>
    have hp := h4 hfin
    simp only [if_true]
    rw [← hp]

/-- C1 witness: in `bracket3` the bye match 0 already has winner "A";
targeting it again with winner "A" leaves the state identical. -/
theorem setWinner_resolved_noop_witness :
    ((findMatch? bracket3.bracket 0).bind Match.winner).isSome = true ∧
      bracket3.thirdPlaceMatch.map Match.id ≠ some 0 ∧
      wouldSynthesize bracket3.bracket bracket3.thirdPlaceMatch = false ∧
      (tournamentFinished bracket3.bracket bracket3.thirdPlaceMatch = true →
        bracket3.phase = AppPhase.FINISHED) ∧
      setWinner bracket3 0 sA3 = bracket3 :=
  ⟨by rfl, by decide, by rfl,
    by intro h; exact absurd h (by decide),
    setWinner_resolved_noop bracket3 0 sA3 (by rfl) (by decide) (by rfl)
      (by intro h; exact absurd h (by decide))⟩

/-! ## C2 -/

/-- Two qualification participants with scores 2 and 1. -/
def ps2 : List Participant := [mkP 21 "A" 2 0, mkP 22 "B" 1 0]

/-- The bracket state built from `ps2`: one round, one match "A" vs "B". -/
def bracket2 : AppState := handleStartBracket ps2 init0

/-- A participant who is in neither slot of `bracket2`'s only match. -/
def outsiderC : Participant := mkP 23 "C" 9 7

/-- C2, counterexample: in `bracket2` the sole match pairs ids 21 and 22;
calling `setWinner` with the outsider (id 23) is not rejected — the
outsider is assigned as the match's winner and the state changes. -/
theorem setWinner_invalid_winner_accepted :
    ((findMatch? bracket2.bracket 0).map
        (fun m => (m.participant1.map Participant.id, m.participant2.map Participant.id)) =
      some (some 21, some 22)) ∧
      ((findMatch? (setWinner bracket2 0 outsiderC).bracket 0).bind Match.winner).map
          Participant.id = some 23 ∧
      setWinner bracket2 0 outsiderC ≠ bracket2 := by
  refine ⟨by rfl, by rfl, ?_⟩
  decide

/-- C2 as amended: `handleSetWinner` performs no slot-membership
validation and surfaces no error: whenever the targeted bracket match
exists and is unresolved, the given participant is recorded as its winner
even when it equals neither slot participant (winner validity is left
entirely to the caller). -/
theorem setWinner_no_validation (s : AppState) (mid : Nat) (w : Participant) (m : Match)
    (h2 : s.thirdPlaceMatch.map Match.id ≠ some mid)
    (hm : findMatch? s.bracket mid = some m)
    (hw : m.winner = none) :
    ((findMatch? (setWinner s mid w).bracket mid).bind Match.winner) = some w := by
  have hid : ∀ x : Match, ({ x with winner := some w } : Match).id = x.id := fun _ => rfl
  have hbr : (setWinner s mid w).bracket = setWinnerBracket s.bracket mid w := by
    unfold setWinner
    cases ht : s.thirdPlaceMatch with
    | none => rfl
    | some t =>
      have hne : (t.id == mid) = false := by
        rw [ht] at h2
        simp only [Option.map_some'] at h2
        simp only [beq_eq_false_iff_ne, ne_eq]
        intro hcontra
        exact h2 (by rw [hcontra])
      simp [hne]
  rw [hbr]
  unfold setWinnerBracket
  rw [hm]
  simp only [hw, Option.isSome_none, Bool.false_eq_true, if_false]
  have hstep : findMatch?
      (updateBracketFirst mid (fun x => { x with winner := some w }) s.bracket) mid =
      some { m with winner := some w } := by
    rw [findMatch?_updateBracketFirst_self mid _ s.bracket hid, hm]
    rfl
  cases hn : m.nextMatchId with
  | none =>
    rw [hstep]
    rfl
  | some nid =>
    have hpres := findMatch?_updateBracketFirst_winner nid mid
      (placeWinner m.matchIndex w)
      (updateBracketFirst mid (fun x => { x with winner := some w }) s.bracket)
      (fun x => placeWinner_id m.matchIndex w x)
      (fun x => placeWinner_winner m.matchIndex w x)
    rw [hstep] at hpres
    simp only [Option.map_some'] at hpres
    cases hfin : findMatch?
        (updateBracketFirst nid (placeWinner m.matchIndex w)
          (updateBracketFirst mid (fun x => { x with winner := some w }) s.bracket)) mid with
    | none => rw [hfin] at hpres; simp at hpres
    | some y =>
      rw [hfin] at hpres
      simp only [Option.map_some', Option.some.injEq] at hpres
      simp [hpres]

/-- C2 witness: assigning the outsider in `bracket2` via the amended
theorem. -/
theorem setWinner_no_validation_witness :
    bracket2.thirdPlaceMatch.map Match.id ≠ some 0 ∧
      ((findMatch? (setWinner bracket2 0 outsiderC).bracket 0).bind Match.winner) =
        some outsiderC :=
  ⟨by decide,
    setWinner_no_validation bracket2 0 outsiderC
      { id := 0, roundIndex := 0, matchIndex := 0,
        participant1 := some (mkP 21 "A" 2 1), participant2 := some (mkP 22 "B" 1 2),
        winner := none, nextMatchId := none }
      (by decide) (by rfl) (by rfl)⟩

/-! ## C3 -/

theorem synthesizeThird_none_spec (b : BracketData) :
    ((synthesizeThird b none).isSome =
      (1 < b.length && semisResolved b &&
        ((semiLosers b).length == 1 || (semiLosers b).length == 2))) ∧
      (((synthesizeThird b none).bind Match.winner).isSome =
        ((synthesizeThird b none).isSome && ((semiLosers b).length == 1))) := by
  unfold synthesizeThird
  simp only [Option.isNone_none, Bool.and_true, Bool.true_and]
  by_cases hc : (1 < b.length && semisResolved b) = true
  · obtain ⟨ha, hr⟩ := Bool.and_eq_true_iff.mp hc
    rw [if_pos hc]
    rcases hls : semiLosers b with _ | ⟨x, _ | ⟨y, _ | ⟨z, t⟩⟩⟩ <;>
      simp [mkThirdPlace, ha, hr]
  · have hcf : (1 < b.length && semisResolved b) = false := by simpa using hc
    rw [if_neg hc]
    constructor
    · rw [hcf]
      simp
    · simp

/-- C3, counterexample: `state6b` is produced by the embedded operations
(build from six qualifiers, then resolve both semifinals directly — each
still had a null slot); both semifinal matches have winners, the loser
list is empty, and no third-place match exists, refuting the
"exists if and only if both semifinals have winners" direction. -/
theorem semisResolved_without_thirdPlace :
    1 < state6b.bracket.length ∧ semisResolved state6b.bracket = true ∧
      (semiLosers state6b.bracket).length = 0 ∧ state6b.thirdPlaceMatch = none :=
  ⟨by decide, by rfl, by rfl, by rfl⟩

/-- C3 as amended: starting from a state with no third-place match, a
`setWinner` call creates one exactly when the updated bracket has more
than one round, every semifinal has a winner, and the semifinal loser
list has one or two entries (at least one loser — with zero losers no
third-place match is created); the created match has a pre-set winner
exactly when there is exactly one loser; and a one-round bracket never
yields a third-place match. -/
theorem setWinner_thirdPlace_spec (s : AppState) (mid : Nat) (w : Participant)
    (h : s.thirdPlaceMatch = none) :
    ((setWinner s mid w).thirdPlaceMatch.isSome =
      (1 < (setWinnerBracket s.bracket mid w).length &&
        semisResolved (setWinnerBracket s.bracket mid w) &&
        ((semiLosers (setWinnerBracket s.bracket mid w)).length == 1 ||
          (semiLosers (setWinnerBracket s.bracket mid w)).length == 2))) ∧
      (((setWinner s mid w).thirdPlaceMatch.bind Match.winner).isSome =
        ((setWinner s mid w).thirdPlaceMatch.isSome &&
          ((semiLosers (setWinnerBracket s.bracket mid w)).length == 1))) ∧
      (s.bracket.length ≤ 1 → (setWinner s mid w).thirdPlaceMatch = none) := by
  have hres : (setWinner s mid w).thirdPlaceMatch =
      synthesizeThird (setWinnerBracket s.bracket mid w) none := by
    simp [setWinner, h]
  have hspec := synthesizeThird_none_spec (setWinnerBracket s.bracket mid w)
  refine ⟨?_, ?_, ?_⟩
  · rw [hres]; exact hspec.1
  · rw [hres]; exact hspec.2
  · intro hlen
    rw [hres]
    have hnl : ¬ 1 < (setWinnerBracket s.bracket mid w).length := by
      rw [setWinnerBracket_length]; omega
    unfold synthesizeThird
    simp [hnl]

/-- C3 witness: the characterization applied to the second semifinal
resolution in the six-player bracket. -/
theorem setWinner_thirdPlace_spec_witness :
    state6a.thirdPlaceMatch = none ∧
      ((setWinner state6a 5 sB6).thirdPlaceMatch.isSome =
        (1 < (setWinnerBracket state6a.bracket 5 sB6).length &&
          semisResolved (setWinnerBracket state6a.bracket 5 sB6) &&
          ((semiLosers (setWinnerBracket state6a.bracket 5 sB6)).length == 1 ||
            (semiLosers (setWinnerBracket state6a.bracket 5 sB6)).length == 2))) ∧
      (((setWinner state6a 5 sB6).thirdPlaceMatch.bind Match.winner).isSome =
        ((setWinner state6a 5 sB6).thirdPlaceMatch.isSome &&
          ((semiLosers (setWinnerBracket state6a.bracket 5 sB6)).length == 1))) :=
  ⟨by rfl, (setWinner_thirdPlace_spec state6a 5 sB6 (by rfl)).1,
    (setWinner_thirdPlace_spec state6a 5 sB6 (by rfl)).2.1⟩

/-! ## C4 -/

/-- A stale third-place match left over from a previous competition. -/
def staleTpm : Match :=
  { id := 999, roundIndex := -1, matchIndex := 0, participant1 := some (mkP 31 "X" 1 3),
    participant2 := some (mkP 32 "Y" 1 4), winner := some (mkP 31 "X" 1 3),
    nextMatchId := none }

/-- A qualification state that still carries `staleTpm`. -/
def staleState : AppState :=
  { phase := AppPhase.QUALIFICATION, standings := [], competitionParticipants := ps2,
    bracket := [], thirdPlaceMatch := some staleTpm, totalCompetitions := none,
    competitionsHeld := 0 }

/-- C4, counterexample: running the bracket builder with two qualifiers
over a state holding a stale third-place match leaves that third-place
match in place — `handleStartBracket`'s state update writes only
`bracket` and `phase`, so the result's third-place match is not null. -/
theorem startBracket_keeps_thirdPlace :
    (handleStartBracket ps2 staleState).thirdPlaceMatch = some staleTpm := by rfl

/-- C4 as amended: with at least 2 qualifiers the builder replaces the
bracket and enters the BRACKET phase, but leaves the third-place match
exactly as it was; the clearing the spec attributes to it is performed
earlier, by `handleStartCompetition` (which nulls the third-place match
when a new competition starts). -/
theorem startBracket_frame (ps : List Participant) (s : AppState)
    (h : 2 ≤ (qualifiedSeeded ps).length) :
    (handleStartBracket ps s).thirdPlaceMatch = s.thirdPlaceMatch ∧
      (handleStartBracket ps s).bracket = buildBracket (qualifiedSeeded ps) ∧
      (handleStartBracket ps s).phase = AppPhase.BRACKET ∧
      (handleStartCompetition s).thirdPlaceMatch = none := by
  have hn : ¬ (qualifiedSeeded ps).length < 2 := by omega
  unfold handleStartBracket
  rw [if_neg hn]
  exact ⟨rfl, rfl, rfl, rfl⟩

/-- C4 witness: the frame property at the stale-state fixture. -/
theorem startBracket_frame_witness :
    2 ≤ (qualifiedSeeded ps2).length ∧
      (handleStartBracket ps2 staleState).thirdPlaceMatch = staleState.thirdPlaceMatch ∧
      (handleStartBracket ps2 staleState).phase = AppPhase.BRACKET ∧
      (handleStartCompetition staleState).thirdPlaceMatch = none :=
  ⟨by decide, (startBracket_frame ps2 staleState (by decide)).1,
    (startBracket_frame ps2 staleState (by decide)).2.2.1,
    (startBracket_frame ps2 staleState (by decide)).2.2.2⟩

/-! ## C5 -/

/-- C5: with fewer than two qualifiers (score null or 0 does not qualify)
`handleStartBracket` raises the insufficient-qualifiers alert and returns
the prior state completely untouched — no bracket, no phase change. -/
theorem startBracket_insufficient (ps : List Participant) (s : AppState)
    (h : (qualifiedSeeded ps).length < 2) :
    handleStartBracket ps s = s ∧ (startBracketAlert ps).isSome = true := by
  constructor
  · unfold handleStartBracket
    simp only [if_pos h]
  · unfold startBracketAlert
    simp only [if_pos h, Option.isSome_some]

/-- One participant with a positive score, one with score 0, one with a
null score: only a single qualifier. -/
def ps1 : List Participant :=
  [mkP 41 "A" 5 0, { id := 42, name := "B", score := some 0, seed := 0 },
   { id := 43, name := "C", score := none, seed := 0 }]

/-- C5 witness: the rejection at the single-qualifier fixture. -/
theorem startBracket_insufficient_witness :
    (qualifiedSeeded ps1).length < 2 ∧ handleStartBracket ps1 init0 = init0 ∧
      (startBracketAlert ps1).isSome = true :=
  ⟨by decide, (startBracket_insufficient ps1 init0 (by decide)).1,
    (startBracket_insufficient ps1 init0 (by decide)).2⟩

/-! ## C6 -/

/-- C6: the recursive-doubling seeding order evaluates to exactly the
specified sequences for bracket sizes 8, 4 and 2. -/
theorem buildSeeds_values :
    buildSeeds 8 = [1, 8, 4, 5, 2, 7, 3, 6] ∧ buildSeeds 4 = [1, 4, 2, 3] ∧
      buildSeeds 2 = [1, 2] := by
  refine ⟨by rfl, by rfl, by rfl⟩

/-! ## C7 -/

/-- The match a round-0 seeding slot feeds in round `r`: slot `i` lies in
round-0 match `i / 2`, and the `nextMatchId` linkage sends match `m` of
round `r` to match `m / 2` of round `r + 1`, so a participant entering at
slot `i` who wins every match plays match `i / 2 ^ (r + 1)` of round `r`. -/
def roundMatchIndex (slot r : Nat) : Nat :=
  slot / 2 ^ (r + 1)

/-- C7: in the seeding order for the bracket built from `n ≥ 2`
qualifiers, seed 1 occupies slot 0 and seed 2 occupies slot
`2 ^ (numRounds - 1)` (the start of the second half); the two slots feed
the same match of round `r` exactly when `r` is the last round — so if
both always win, the only match that can pair them is the final. -/
theorem seeds_one_two_meet_only_in_final (n r : Nat) (hn : 2 ≤ n)
    (hr : r < ceilLog2 n) :
    (buildSeeds (bracketSizeOf n)).get? 0 = some 1 ∧
      (buildSeeds (bracketSizeOf n)).get? (2 ^ (ceilLog2 n - 1)) = some 2 ∧
      (roundMatchIndex 0 r = roundMatchIndex (2 ^ (ceilLog2 n - 1)) r ↔
        r = ceilLog2 n - 1) := by
  have hk : 1 ≤ ceilLog2 n := one_le_ceilLog2 n hn
  have hb : buildSeeds (bracketSizeOf n) = seedIter (ceilLog2 n) := by
    unfold bracketSizeOf
    exact buildSeeds_pow (ceilLog2 n)
  refine ⟨by rw [hb]; exact seedIter_get_zero _, by rw [hb]; exact seedIter_get_two _ hk, ?_⟩
  unfold roundMatchIndex
  rw [Nat.zero_div]
  constructor
  · intro h0
    have hz : 2 ^ (ceilLog2 n - 1) / 2 ^ (r + 1) = 0 := h0.symm
    have hlt : 2 ^ (ceilLog2 n - 1) < 2 ^ (r + 1) :=
      (Nat.div_eq_zero_iff (Nat.pos_pow_of_pos (r + 1) (by norm_num))).mp hz
    have hexp : ceilLog2 n - 1 < r + 1 :=
      (Nat.pow_lt_pow_iff_right (by norm_num)).mp hlt
    omega
  · intro h0
    have hlt : 2 ^ (ceilLog2 n - 1) < 2 ^ (r + 1) := by
      apply Nat.pow_lt_pow_right (by norm_num)
      omega
    rw [Nat.div_eq_of_lt hlt]

/-- C7 witness: for six qualifiers (three rounds) and round 1, the slots
of seed 1 and seed 2 feed different matches, matching `r = k - 1` being
false. -/
theorem seeds_one_two_meet_only_in_final_witness :
    2 ≤ 6 ∧ 1 < ceilLog2 6 ∧
      (buildSeeds (bracketSizeOf 6)).get? 0 = some 1 ∧
      (buildSeeds (bracketSizeOf 6)).get? (2 ^ (ceilLog2 6 - 1)) = some 2 ∧
      (roundMatchIndex 0 1 = roundMatchIndex (2 ^ (ceilLog2 6 - 1)) 1 ↔
        1 = ceilLog2 6 - 1) :=
  ⟨by decide, by decide, (seeds_one_two_meet_only_in_final 6 1 (by decide) (by decide)).1,
    (seeds_one_two_meet_only_in_final 6 1 (by decide) (by decide)).2.1,
    (seeds_one_two_meet_only_in_final 6 1 (by decide) (by decide)).2.2⟩

/-! ## C8 -/

/-- C8: every entry of the allocator's qualification-points list — the
participant ranked `i + 1` in the score-descending, stably sorted
qualifier list — carries exactly the points of the spec's rank table. -/
theorem qualPoints_match_table (ps : List Participant) (i : Nat) (idp : Nat × ℚ)
    (h : (qualPointsOf ps).get? i = some idp) :
    idp.2 = specRankPoints (i + 1) := by
  unfold qualPointsOf at h
  rw [List.get?_map, List.get?_enum] at h
  cases hq : (qualifiedRanking ps).get? i with
  | none => rw [hq] at h; simp at h
  | some p =>
    rw [hq] at h
    simp only [Option.map_some', Option.some.injEq] at h
    rw [← h]
    rfl

/-- C8 witness: the third-ranked qualifier of the three-player fixture
(id 12) receives exactly the table's 8 points. -/
theorem qualPoints_match_table_witness :
    (qualPointsOf ps3).get? 2 = some (12, 8) ∧ ((12 : Nat), (8 : ℚ)).2 = specRankPoints 3 :=
  ⟨by rfl, qualPoints_match_table ps3 2 (12, 8) (by rfl)⟩

/-! ## C9 -/

/-- A session document with the given id, secret and standings and
otherwise empty content. -/
def mkSession (sid secret : String) (st : List ChampionshipStanding) : SessionDoc :=
  { sessionId := sid, adminSecret := secret, phase := AppPhase.CHAMPIONSHIP_VIEW,
    standings := st, competitionParticipants := [], bracket := [], thirdPlaceMatch := none,
    totalCompetitions := none, competitionsHeld := 0, createdAt := 0, updatedAt := 0 }

/-- A store holding one session with empty standings and one pending
(unmerged) registration named "alice". -/
def dbPending : ConvexDB :=
  { sessions := [mkSession "s1" "secret" []],
    registrations := [{ sessionId := "s1", participantId := 1, name := "alice",
                        createdAt := 0, processed := false }] }

/-- C9, counterexample: a pending registration "alice" exists and the
submitted name "Alice" matches it case-insensitively after trimming, yet
`registerParticipant` accepts the submission — the pending-registrations
check compares the stored name to the trimmed submitted name exactly and
case-sensitively, not case-insensitively. -/
theorem registerParticipant_case_sensitive_pending :
    (dbPending.registrations.any
        (fun r => r.sessionId == "s1" &&
          jsToLower r.name == jsTrim (jsToLower "Alice"))) = true ∧
      (registerParticipant dbPending "s1" "Alice" 7).2 = none := by
  exact ⟨by rfl, by rfl⟩

/-- C9 as amended: for an existing session, registration is rejected with
the duplicate error exactly when the lowercased-and-trimmed submitted
name matches a lowercased standings name (`standingsDup`) or the trimmed
submitted name matches a pending registration name of the session exactly
and case-sensitively (`pendingDup`); any rejection leaves both tables
untouched. -/
theorem registerParticipant_duplicate_spec (db : ConvexDB) (sid nm : String) (now : Nat)
    (sess : SessionDoc) (hs : findSession db sid = some sess) :
    ((registerParticipant db sid nm now).2 = some "See nimi on juba registreeritud" ↔
      (standingsDup sess nm || pendingDup db sid nm) = true) ∧
      ((registerParticipant db sid nm now).2.isSome = true →
        (registerParticipant db sid nm now).1 = db) := by
  unfold registerParticipant
  rw [hs]
  by_cases h1 : standingsDup sess nm = true
  · simp [h1]
  · have h1f : standingsDup sess nm = false := by simpa using h1
    by_cases h2 : pendingDup db sid nm = true
    · simp [h1f, h2]
    · have h2f : pendingDup db sid nm = false := by simpa using h2
      simp [h1f, h2f]

/-- A session holding one standing named "Alice". -/
def sessAlice : SessionDoc :=
  mkSession "s1" "secret" [{ id := 5, name := "Alice", pointsPerCompetition := [] }]

/-- A store with the "Alice" session and no pending registrations. -/
def dbStanding : ConvexDB :=
  { sessions := [sessAlice], registrations := [] }

/-- C9 witness: submitting " alice " against `dbStanding` is rejected by
the case-insensitive trimmed standings comparison, leaving the store
unchanged. -/
theorem registerParticipant_duplicate_spec_witness :
    findSession dbStanding "s1" = some sessAlice ∧
      ((registerParticipant dbStanding "s1" " alice " 7).2 =
          some "See nimi on juba registreeritud" ↔
        (standingsDup sessAlice " alice " || pendingDup dbStanding "s1" " alice ") = true) ∧
      ((registerParticipant dbStanding "s1" " alice " 7).2.isSome = true →
        (registerParticipant dbStanding "s1" " alice " 7).1 = dbStanding) :=
  ⟨by rfl,
    (registerParticipant_duplicate_spec dbStanding "s1" " alice " 7 sessAlice (by rfl)).1,
    (registerParticipant_duplicate_spec dbStanding "s1" " alice " 7 sessAlice (by rfl)).2⟩

/-! ## C10 -/

/-- Two stored sessions agree on everything except (possibly) the admin
secret. -/
def agreeExceptSecret (a b : SessionDoc) : Prop :=
  a.sessionId = b.sessionId ∧ a.phase = b.phase ∧ a.standings = b.standings ∧
    a.competitionParticipants = b.competitionParticipants ∧ a.bracket = b.bracket ∧
    a.thirdPlaceMatch = b.thirdPlaceMatch ∧ a.totalCompetitions = b.totalCompetitions ∧
    a.competitionsHeld = b.competitionsHeld ∧ a.createdAt = b.createdAt ∧
    a.updatedAt = b.updatedAt

/-- C10: `getSession` is independent of the stored admin secrets — two
stores whose sessions agree pointwise on everything but `adminSecret`
yield identical public query results for every session id, and the
result type carries no `adminSecret` field at all (`PublicSession`); a
spectator learns nothing about the secret. -/
theorem scrubbedFind_eq (sid : String) (l1 l2 : List SessionDoc)
    (h : List.Forall₂ agreeExceptSecret l1 l2) :
    (l1.find? (fun s => s.sessionId == sid)).map scrubSession =
      (l2.find? (fun s => s.sessionId == sid)).map scrubSession := by
  induction h with
  | nil => rfl
  | @cons a b t1 t2 hab htl ih =>
    obtain ⟨hid, hph, hst, hcp, hbr, htp, htc, hch, hca, hup⟩ := hab
    simp only [List.find?, hid]
    cases hmatch : b.sessionId == sid with
    | true =>
      simp only [Option.map_some', Option.some.injEq]
      unfold scrubSession
      rw [hid, hph, hst, hcp, hbr, htp, htc, hch, hca, hup]
    | false => exact ih

theorem getSession_independent_of_secret (db1 db2 : ConvexDB) (sid : String)
    (h : List.Forall₂ agreeExceptSecret db1.sessions db2.sessions) :
    getSession db1 sid = getSession db2 sid := by
  unfold getSession findSession
  exact scrubbedFind_eq sid db1.sessions db2.sessions h

/-- C10 witness: two one-session stores differing only in the secret
("x" versus "y") give identical `getSession` answers. -/
theorem getSession_independent_of_secret_witness :
    List.Forall₂ agreeExceptSecret [mkSession "s1" "x" []] [mkSession "s1" "y" []] ∧
      getSession { sessions := [mkSession "s1" "x" []], registrations := [] } "s1" =
        getSession { sessions := [mkSession "s1" "y" []], registrations := [] } "s1" :=
  ⟨List.Forall₂.cons ⟨rfl, rfl, rfl, rfl, rfl, rfl, rfl, rfl, rfl, rfl⟩ List.Forall₂.nil,
    getSession_independent_of_secret
      { sessions := [mkSession "s1" "x" []], registrations := [] }
      { sessions := [mkSession "s1" "y" []], registrations := [] } "s1"
      (List.Forall₂.cons ⟨rfl, rfl, rfl, rfl, rfl, rfl, rfl, rfl, rfl, rfl⟩ List.Forall₂.nil)⟩

end DMEC
